import Mathlib

/-!
Verification development for the irregular-puzzle state machine of the
SLA-Puzzle repository.  The definitions below are a shallow embedding of
`src/pages/IrregularPuzzleGame.tsx`: the React state variables become the
fields of `GameState`, and each `useCallback` handler becomes a pure
function `GameState → ... → GameState` computing the net effect of all the
`setX` calls of one handler invocation (React batches them against the same
snapshot, so sequential functional composition is faithful).

Conventions:
* JavaScript `null`/`undefined` become `Option`; an absent array index read
  (`grid[i]` out of range) is `none`, matching the code's falsy test.
* JS `%` on integers is truncated remainder, embedded as `Int.tmod`.
* `Math.sign` is `Int.sign`; the TS type of a rotation direction is
  `1 | -1`, so `(t + 4) % 4` only ever sees non-negative arguments and
  `Int.emod` coincides with the JS remainder there.
* `Math.random()`-driven choice in `getHint` is abstracted by an oracle
  `k : Nat`, reduced mod the candidate count (the code's
  `Math.floor(Math.random() * len)` ranges over exactly those indices).
* Display-only derived state (`progress`, loading flags, drag state) is
  omitted; move `id`/`timestamp` fields are omitted (never read back by
  any handler logic other than as opaque data).
-/

namespace SLAPuzzle

/-- Value of the `lastOperation` tag stored on a piece. -/
inductive LastOp where
  | rotated
  | flipped
deriving DecidableEq

/-- One irregular puzzle piece, as patched at game initialization
(`generatePuzzle` adds `flipX/rotation/lastOperation/rotateCount/flipCount`
to the generator's pieces). Edge codes `up/right/down/left` are
concave(-1) / flat(0) / convex(1). -/
structure Piece where
  id : Nat
  gridRow : Nat
  gridCol : Nat
  up : Int
  right : Int
  down : Int
  left : Int
  rotation : Int
  flipX : Bool
  isCorrect : Bool
  isDraggable : Bool
  correctRotation : Int
  lastOperation : Option LastOp
  rotateCount : Nat
  flipCount : Nat
  currentSlot : Option Nat
deriving DecidableEq

/-- The `action` field of a recorded move. -/
inductive MoveAction where
  | placeA
  | removeA
  | rotateA
  | flipA
  | replaceA
deriving DecidableEq

/-- One recorded move (`GameMove` in the source; `id`/`timestamp` omitted). -/
structure GameMove where
  pieceId : Nat
  action : MoveAction
  fromSlot : Option Nat
  toSlot : Option Nat
  replacedPieceId : Option Nat
  rotationDelta : Option Int
deriving DecidableEq

/-- The aggregated game state: the React `useState` variables of
`IrregularPuzzleGame` that the handlers read or write. -/
structure GameState where
  pieces : List Piece
  answerGrid : List (Option Piece)
  rows : Nat
  cols : Nat
  history : List GameMove
  redoHistory : List GameMove
  moves : Nat
  isComplete : Bool
  isGameStarted : Bool
  gameStartTime : Option Nat
  elapsedTime : Nat
  selectedPiece : Option Nat
deriving DecidableEq

/-- `puzzleConfig.pieces.find(p => p.id === pieceId)`. -/
def findPiece (s : GameState) (pid : Nat) : Option Piece :=
  s.pieces.find? (fun p => p.id == pid)

/-- Read of `grid[i]`: an out-of-range or empty slot is `none`. -/
def slotAt (g : List (Option Piece)) (i : Nat) : Option Piece :=
  g.getD i none

/-- `grid.findIndex(slot => slot?.id === pieceId)` (first matching index). -/
def gridFind : List (Option Piece) → Nat → Option Nat
  | [], _ => none
  | o :: rest, pid =>
    if (o.elim false (fun q => q.id == pid)) then some 0
    else (gridFind rest pid).map (· + 1)

/-- The four edge codes of a piece as one record, for rotation. -/
structure Edges where
  u : Int
  r : Int
  d : Int
  l : Int
deriving DecidableEq

/-- One clockwise step of `dirs = [dirs[3], dirs[0], dirs[1], dirs[2]]`. -/
def rotOnce (e : Edges) : Edges := ⟨e.l, e.u, e.r, e.d⟩

/-- Iterated edge-code rotation. -/
def rotIter : Nat → Edges → Edges
  | 0, e => e
  | n + 1, e => rotIter n (rotOnce e)

/-- `(times + 4) % 4` after the flip inversion, as in the source. -/
def rotSteps (direction : Int) (flip : Bool) : Nat :=
  (((if flip then -direction else direction) + 4).emod 4).toNat

/-- Per-piece effect of `handleRotatePiece` past the guard. -/
def rotateUpdate (direction : Int) (p : Piece) : Piece :=
  let e := rotIter (rotSteps direction p.flipX) ⟨p.up, p.right, p.down, p.left⟩
  let realDirection := if p.flipX then -direction else direction
  { p with
    up := e.u, right := e.r, down := e.d, left := e.l,
    rotation := p.rotation + 90 * realDirection,
    lastOperation := some LastOp.rotated,
    rotateCount := p.rotateCount + 1,
    flipCount := 0 }

/-- Guard of `handleRotatePiece`: last operation was a flip and the piece has
been flipped fewer than 2 times. -/
def rotateGuardBlocked (s : GameState) (pid : Nat) : Bool :=
  match findPiece s pid with
  | some p => p.lastOperation == some LastOp.flipped && decide (p.flipCount < 2)
  | none => false

/-- `handleRotatePiece(pieceId, direction)` (TS type of `direction` is
`1 | -1`). -/
def handleRotatePiece (s : GameState) (pid : Nat) (direction : Int) : GameState :=
  if rotateGuardBlocked s pid then s
  else
    { s with
      pieces := s.pieces.map (fun p =>
        if p.id == pid then rotateUpdate direction p else p),
      history := s.history ++
        [⟨pid, MoveAction.rotateA, none, none, none, some (90 * direction)⟩],
      redoHistory := [],
      moves := s.moves + 1 }

/-- Per-piece effect of `handleFlipX` past the guard: swap `left`/`right`. -/
def flipUpdate (p : Piece) : Piece :=
  { p with
    left := p.right, right := p.left,
    flipX := !p.flipX,
    lastOperation := some LastOp.flipped,
    flipCount := p.flipCount + 1,
    rotateCount := 0 }

/-- Guard of `handleFlipX`: last operation was a rotation and the rotation is
not a multiple of 360 (JS `%` on the accumulated signed degrees). -/
def flipGuardBlocked (s : GameState) (pid : Nat) : Bool :=
  match findPiece s pid with
  | some p => p.lastOperation == some LastOp.rotated &&
      decide (Int.tmod p.rotation 360 ≠ 0)
  | none => false

/-- `handleFlipX(pieceId)`. -/
def handleFlipX (s : GameState) (pid : Nat) : GameState :=
  if flipGuardBlocked s pid then s
  else
    { s with
      pieces := s.pieces.map (fun p =>
        if p.id == pid then flipUpdate p else p),
      history := s.history ++
        [⟨pid, MoveAction.flipA, none, none, none, none⟩],
      redoHistory := [],
      moves := s.moves + 1 }

/-- The side of a piece a direction looks at. -/
inductive Side where
  | sUp
  | sRight
  | sDown
  | sLeft
deriving DecidableEq

/-- Edge code of a piece on a given side. -/
def Piece.edge (p : Piece) : Side → Int
  | Side.sUp => p.up
  | Side.sRight => p.right
  | Side.sDown => p.down
  | Side.sLeft => p.left

/-- One entry of the `directions` table of `handlePiecePlacement`. -/
structure DirSpec where
  dr : Int
  dc : Int
  selfSide : Side
  otherSide : Side

/-- The `directions` table: up, right, down, left neighbors. -/
def dirList : List DirSpec :=
  [⟨-1, 0, Side.sUp, Side.sDown⟩,
   ⟨0, 1, Side.sRight, Side.sLeft⟩,
   ⟨1, 0, Side.sDown, Side.sUp⟩,
   ⟨0, -1, Side.sLeft, Side.sRight⟩]

/-- `neighborVal` for one direction: the in-bounds occupied neighbor's
opposing edge code, `-1` for an in-bounds empty slot, `none` past the grid
boundary. -/
def neighborVal (s : GameState) (slot : Nat) (dr dc : Int) (otherSide : Side) :
    Option Int :=
  let row : Int := (slot / s.cols : Nat)
  let col : Int := (slot % s.cols : Nat)
  let nRow := row + dr
  let nCol := col + dc
  if 0 ≤ nRow ∧ nRow < (s.rows : Int) ∧ 0 ≤ nCol ∧ nCol < (s.cols : Int) then
    match slotAt s.answerGrid (nRow * (s.cols : Int) + nCol).toNat with
    | some np => some (np.edge otherSide)
    | none => some (-1)
  else none

/-- The early-return conditions of the edge loop for one direction. -/
def dirRejects (selfVal : Int) (nv : Option Int) : Bool :=
  match nv with
  | none => selfVal == 1
  | some v =>
      (selfVal == 1 && v == 1) || (selfVal == 1 && v == 0) ||
      (selfVal == 0 && v == 1)

/-- The whole edge-compatibility loop of `handlePiecePlacement`: no
direction triggers an early return. -/
def placementEdgeOk (s : GameState) (piece : Piece) (slot : Nat) : Bool :=
  dirList.all (fun ds =>
    !dirRejects (piece.edge ds.selfSide) (neighborVal s slot ds.dr ds.dc ds.otherSide))

/-- The `allCorrect` check computed on the new grid after a placement:
every slot holds a copy whose stored `gridRow/gridCol` maps to that index,
whose `rotation % 360` equals `correctRotation % 360`, and whose `flipX`
is false. -/
def completionCheck (grid : List (Option Piece)) (cols : Nat) : Bool :=
  grid.enum.all (fun pr =>
    match pr.2 with
    | none => false
    | some p =>
        (p.gridRow * cols + p.gridCol == pr.1) &&
        (Int.tmod p.rotation 360 == Int.tmod p.correctRotation 360) &&
        (p.flipX == false))

/-- The acceptance guard of `handlePiecePlacement`: the piece exists, the
target slot does not hold the same piece, and the edge loop passes. -/
def placeAccepted (s : GameState) (pid slot : Nat) : Bool :=
  match findPiece s pid with
  | none => false
  | some piece =>
    match slotAt s.answerGrid slot with
    | some q => if q.id == pid then false else placementEdgeOk s piece slot
    | none => placementEdgeOk s piece slot

/-- `handlePiecePlacement(pieceId, slotIndex)`. -/
def handlePiecePlacement (s : GameState) (pid slot : Nat) : GameState :=
  match findPiece s pid with
  | none => s
  | some piece =>
    let existingSame : Bool :=
      match slotAt s.answerGrid slot with
      | some q => q.id == pid
      | none => false
    if existingSame then s
    else if !placementEdgeOk s piece slot then s
    else
      let existingPieceId := (slotAt s.answerGrid slot).map Piece.id
      let currentSlotIndex := gridFind s.answerGrid pid
      let grid1 :=
        match currentSlotIndex with
        | some i => s.answerGrid.set i none
        | none => s.answerGrid
      let updatedPieces := s.pieces.map (fun p =>
        if p.id == pid then { p with isCorrect := true }
        else if existingPieceId == some p.id then { p with isCorrect := false }
        else p)
      let newGrid := grid1.set slot (some { piece with isCorrect := true })
      let allCorrect := completionCheck newGrid s.cols
      { s with
        pieces := updatedPieces,
        answerGrid := newGrid,
        isComplete := s.isComplete || allCorrect,
        history := s.history ++
          [⟨pid,
            (if existingPieceId.isSome then MoveAction.replaceA else MoveAction.placeA),
            currentSlotIndex, some slot, existingPieceId, none⟩],
        redoHistory := [],
        selectedPiece := none,
        moves := s.moves + 1 }

/-- `handlePieceRemoval(pieceId)`. -/
def handlePieceRemoval (s : GameState) (pid : Nat) : GameState :=
  match gridFind s.answerGrid pid with
  | none => s
  | some slot =>
    { s with
      pieces := s.pieces.map (fun p =>
        if p.id == pid then { p with isCorrect := false } else p),
      answerGrid := s.answerGrid.set slot none,
      history := s.history ++
        [⟨pid, MoveAction.removeA, some slot, none, none, none⟩],
      redoHistory := [],
      moves := s.moves + 1 }

/-- `handleUndo()`: pop the last move onto the redo stack and replay its
inverse as written in the source (which, notably, does not touch the
`pieces` array for `remove` and `replace` inverses). -/
def handleUndo (s : GameState) : GameState :=
  match s.history.getLast? with
  | none => s
  | some lastMove =>
    let s1 := { s with
      history := s.history.dropLast,
      redoHistory := s.redoHistory ++ [lastMove],
      moves := s.moves - 1 }
    match lastMove.action with
    | MoveAction.placeA =>
      match lastMove.toSlot with
      | none => s1
      | some t =>
        let grid1 := s.answerGrid.set t none
        let grid2 :=
          match lastMove.fromSlot with
          | some f =>
            match findPiece s lastMove.pieceId with
            | some piece => grid1.set f (some { piece with currentSlot := some f })
            | none => grid1
          | none => grid1
        { s1 with
          answerGrid := grid2,
          pieces := s.pieces.map (fun p =>
            if p.id == lastMove.pieceId then
              { p with isCorrect := lastMove.fromSlot.isSome,
                       currentSlot := lastMove.fromSlot }
            else p) }
    | MoveAction.removeA =>
      match lastMove.fromSlot with
      | none => s1
      | some f =>
        match findPiece s lastMove.pieceId with
        | some piece =>
          { s1 with answerGrid := s.answerGrid.set f (some { piece with currentSlot := some f }) }
        | none => s1
    | MoveAction.rotateA =>
      match lastMove.rotationDelta with
      | none => s1
      | some d =>
        { s1 with
          pieces := s.pieces.map (fun p =>
            if p.id == lastMove.pieceId then
              let e := rotIter (rotSteps (-(Int.sign d)) p.flipX)
                ⟨p.up, p.right, p.down, p.left⟩
              { p with
                up := e.u, right := e.r, down := e.d, left := e.l,
                rotation := p.rotation - d,
                lastOperation := none,
                rotateCount := p.rotateCount - 1 }
            else p) }
    | MoveAction.flipA =>
      { s1 with
        pieces := s.pieces.map (fun p =>
          if p.id == lastMove.pieceId then
            { p with left := p.right, right := p.left, flipX := !p.flipX,
                     lastOperation := none, flipCount := p.flipCount - 1 }
          else p) }
    | MoveAction.replaceA =>
      match lastMove.toSlot, lastMove.replacedPieceId with
      | some t, some rid =>
        match findPiece s rid with
        | some rp =>
          { s1 with answerGrid := s.answerGrid.set t (some { rp with currentSlot := some t }) }
        | none => s1
      | _, _ => s1

/-- `handleRedo()`: pop the last redo move back onto history and replay its
forward effect unconditionally (no re-validation). -/
def handleRedo (s : GameState) : GameState :=
  match s.redoHistory.getLast? with
  | none => s
  | some nextMove =>
    let s1 := { s with
      redoHistory := s.redoHistory.dropLast,
      history := s.history ++ [nextMove],
      moves := s.moves + 1 }
    match nextMove.action with
    | MoveAction.placeA =>
      match nextMove.toSlot with
      | none => s1
      | some t =>
        match findPiece s nextMove.pieceId with
        | none => s1
        | some piece =>
          let grid1 :=
            match nextMove.fromSlot with
            | some f => s.answerGrid.set f none
            | none => s.answerGrid
          { s1 with
            answerGrid := grid1.set t (some { piece with currentSlot := some t }),
            pieces := s.pieces.map (fun p =>
              if p.id == nextMove.pieceId then
                { p with isCorrect := true, currentSlot := some t }
              else p) }
    | MoveAction.removeA =>
      match nextMove.fromSlot with
      | none => s1
      | some f =>
        { s1 with
          answerGrid := s.answerGrid.set f none,
          pieces := s.pieces.map (fun p =>
            if p.id == nextMove.pieceId then
              { p with isCorrect := false, currentSlot := none }
            else p) }
    | MoveAction.rotateA =>
      match nextMove.rotationDelta with
      | none => s1
      | some d =>
        { s1 with
          pieces := s.pieces.map (fun p =>
            if p.id == nextMove.pieceId then
              let e := rotIter (rotSteps (Int.sign d) p.flipX)
                ⟨p.up, p.right, p.down, p.left⟩
              { p with
                up := e.u, right := e.r, down := e.d, left := e.l,
                rotation := p.rotation + d,
                lastOperation := some LastOp.rotated,
                rotateCount := p.rotateCount + 1,
                flipCount := 0 }
            else p) }
    | MoveAction.flipA =>
      { s1 with
        pieces := s.pieces.map (fun p =>
          if p.id == nextMove.pieceId then
            { p with left := p.right, right := p.left, flipX := !p.flipX,
                     lastOperation := some LastOp.flipped,
                     flipCount := p.flipCount + 1, rotateCount := 0 }
          else p) }
    | MoveAction.replaceA =>
      match nextMove.toSlot, nextMove.replacedPieceId with
      | some t, some rid =>
        match findPiece s nextMove.pieceId with
        | none => s1
        | some piece =>
          { s1 with
            answerGrid := s.answerGrid.set t (some { piece with currentSlot := some t }),
            pieces := s.pieces.map (fun p =>
              if p.id == nextMove.pieceId then
                { p with isCorrect := true, currentSlot := some t }
              else if p.id == rid then
                { p with isCorrect := false, currentSlot := none }
              else p) }
      | _, _ => s1

/-- The staging ("processing area") list: `pieces.filter(p => p.isDraggable
&& !p.isCorrect)`. -/
def processingAreaPieces (s : GameState) : List Piece :=
  s.pieces.filter (fun p => p.isDraggable && !p.isCorrect)

/-- The candidate set of `getHint`, the same filter as the processing area. -/
def hintCandidates (s : GameState) : List Piece :=
  s.pieces.filter (fun p => p.isDraggable && !p.isCorrect)

/-- `getHint()`, with the `Math.random` draw abstracted by the oracle `k`:
pick candidate `k % len` and run the ordinary placement at the piece's
correct slot, then mark it selected. -/
def getHint (s : GameState) (k : Nat) : GameState :=
  match hintCandidates s with
  | [] => s
  | c0 :: rest =>
    let candidates := c0 :: rest
    let chosen := candidates.getD (k % candidates.length) c0
    let slot := chosen.gridRow * s.cols + chosen.gridCol
    let s2 := handlePiecePlacement s chosen.id slot
    { s2 with selectedPiece := some chosen.id }

/-- One firing of the elapsed-time interval: the effect runs only while
`gameStartTime && !isComplete && isGameStarted`. -/
def timerTick (s : GameState) (now : Nat) : GameState :=
  match s.gameStartTime with
  | none => s
  | some t0 =>
    if (!s.isComplete && s.isGameStarted : Bool) then
      { s with elapsedTime := (now - t0) / 1000 }
    else s

/-- The operation language of the game session. -/
inductive Op where
  | placeOp (pid slot : Nat)
  | removeOp (pid : Nat)
  | rotOp (pid : Nat) (direction : Int)
  | flipOp (pid : Nat)
  | undoOp
  | redoOp
  | hintOp (k : Nat)
  | tickOp (now : Nat)
deriving DecidableEq

/-- Whether an operation is the undo operation. -/
def Op.isUndo : Op → Bool
  | Op.undoOp => true
  | _ => false

/-- Dispatch one operation to its handler. -/
def applyOp (s : GameState) : Op → GameState
  | Op.placeOp pid slot => handlePiecePlacement s pid slot
  | Op.removeOp pid => handlePieceRemoval s pid
  | Op.rotOp pid d => handleRotatePiece s pid d
  | Op.flipOp pid => handleFlipX s pid
  | Op.undoOp => handleUndo s
  | Op.redoOp => handleRedo s
  | Op.hintOp k => getHint s k
  | Op.tickOp now => timerTick s now

/-- Run a sequence of operations. -/
def applyOps (s : GameState) (ops : List Op) : GameState :=
  ops.foldl applyOp s

/-- A freshly generated piece as patched by `generatePuzzle`/`startGame`
(unplaced, neutral orientation, counters reset). -/
def mkPiece (pid gr gc : Nat) (u r d l : Int) : Piece :=
  { id := pid, gridRow := gr, gridCol := gc,
    up := u, right := r, down := d, left := l,
    rotation := 0, flipX := false, isCorrect := false, isDraggable := true,
    correctRotation := 0, lastOperation := none,
    rotateCount := 0, flipCount := 0, currentSlot := none }

/-- State right after `startGame`: empty grid of `rows × cols`, counters
zeroed, timer started. -/
def initState (rows cols : Nat) (ps : List Piece) : GameState :=
  { pieces := ps,
    answerGrid := List.replicate (rows * cols) none,
    rows := rows, cols := cols,
    history := [], redoHistory := [],
    moves := 0, isComplete := false,
    isGameStarted := true, gameStartTime := some 0,
    elapsedTime := 0, selectedPiece := none }

/-! ### Spec-side predicates (stated from the specification's wording, for
refinement comparison against the embedded code) -/

/-- Modelled from the spec, §4.2 irregular rule: legality of one side of a
placement.  A missing neighbor (grid boundary, `none`) imposes no constraint
except that a convex (1) edge facing it is rejected; against a present
neighbor code `v` the pairings convex-with-convex, convex-with-flat and
flat-with-convex are rejected and everything else is accepted. -/
def specSideOk (selfVal : Int) (nv : Option Int) : Prop :=
  match nv with
  | none => selfVal ≠ 1
  | some v =>
      ¬ ((selfVal = 1 ∧ v = 1) ∨ (selfVal = 1 ∧ v = 0) ∨ (selfVal = 0 ∧ v = 1))

/-- Modelled from the spec, §4.3 irregular completion clause, reading the
pieces' live state: every slot is occupied, and the occupying piece's
`gridRow × cols + gridCol` equals the slot index, its accumulated rotation
is 0 modulo 360, and it is not flipped. -/
def specIrregularComplete (s : GameState) : Bool :=
  (List.range s.answerGrid.length).all (fun i =>
    match slotAt s.answerGrid i with
    | none => false
    | some c =>
      match findPiece s c.id with
      | none => false
      | some p =>
          (p.gridRow * s.cols + p.gridCol == i) &&
          (Int.tmod p.rotation 360 == 0) && (p.flipX == false))

/-! ### Helper lemmas -/

theorem dirRejects_spec (a : Int) (nv : Option Int) :
    ((!dirRejects a nv) = true) ↔ specSideOk a nv := by
  cases nv with
  | none => simp [dirRejects, specSideOk]
  | some v =>
      simp only [dirRejects, specSideOk, Bool.not_eq_true', Bool.or_eq_false_iff,
        Bool.and_eq_false_iff, beq_eq_false_iff_ne, ne_eq]
      constructor
      · rintro ⟨⟨h1, h2⟩, h3⟩ (⟨a1, b1⟩ | ⟨a1, b1⟩ | ⟨a1, b1⟩) <;>
          subst a1 <;> subst b1 <;> simp_all
      · intro h
        push_neg at h
        refine ⟨⟨?_, ?_⟩, ?_⟩ <;> by_cases ha1 : a = 1 <;> by_cases ha0 : a = 0 <;>
          simp_all


theorem placementEdgeOk_iff (s : GameState) (piece : Piece) (slot : Nat) :
    placementEdgeOk s piece slot = true ↔
      ∀ ds ∈ dirList, specSideOk (piece.edge ds.selfSide)
        (neighborVal s slot ds.dr ds.dc ds.otherSide) := by
  unfold placementEdgeOk
  rw [List.all_eq_true]
  constructor
  · intro h ds hds
    exact (dirRejects_spec _ _).mp (h ds hds)
  · intro h ds hds
    exact (dirRejects_spec _ _).mpr (h ds hds)

theorem find?_map_of_id (l : List Piece) (pid : Nat) (f : Piece → Piece)
    (hf : ∀ p, (f p).id = p.id) :
    (l.map f).find? (fun p => p.id == pid) =
      (l.find? (fun p => p.id == pid)).map f := by
  induction l with
  | nil => rfl
  | cons a t ih =>
    simp only [List.map_cons, List.find?, hf]
    by_cases h : (a.id == pid) = true
    · simp [h]
    · simp [h, ih]

theorem slotAt_set (g : List (Option Piece)) (i j : Nat) (v : Option Piece) :
    slotAt (g.set i v) j = if i = j ∧ i < g.length then v else slotAt g j := by
  induction g generalizing i j with
  | nil => simp [slotAt, List.set]
  | cons a t ih =>
    cases i with
    | zero =>
      cases j with
      | zero => simp [slotAt, List.set]
      | succ j' => simp [slotAt, List.set]
    | succ i' =>
      cases j with
      | zero => simp [slotAt, List.set]
      | succ j' =>
        simp only [List.set, List.length_cons, slotAt, List.getD_cons_succ]
        simp only [slotAt] at ih
        rw [ih i' j']
        by_cases hij : i' = j' <;> simp [hij, Nat.succ_lt_succ_iff]

theorem gridFind_some (g : List (Option Piece)) (pid k : Nat)
    (h : gridFind g pid = some k) :
    ∃ c, slotAt g k = some c ∧ c.id = pid := by
  induction g generalizing k with
  | nil => simp [gridFind] at h
  | cons o rest ih =>
    by_cases ho : (o.elim false (fun q => q.id == pid)) = true
    · rw [gridFind, if_pos ho] at h
      cases o with
      | none => simp at ho
      | some q =>
        simp only [Option.elim, beq_iff_eq] at ho
        cases h
        exact ⟨q, by simp [slotAt], ho⟩
    · rw [gridFind, if_neg ho] at h
      cases hk : gridFind rest pid with
      | none => rw [hk] at h; simp at h
      | some k' =>
        rw [hk] at h
        simp only [Option.map_some'] at h
        obtain ⟨c, hc1, hc2⟩ := ih k' hk
        cases h
        exact ⟨c, by simpa [slotAt, List.getD_cons_succ] using hc1, hc2⟩

theorem gridFind_none (g : List (Option Piece)) (pid : Nat)
    (h : gridFind g pid = none) :
    ∀ j c, slotAt g j = some c → c.id ≠ pid := by
  induction g with
  | nil => intro j c hc; simp [slotAt] at hc
  | cons o rest ih =>
    by_cases ho : (o.elim false (fun q => q.id == pid)) = true
    · rw [gridFind, if_pos ho] at h; simp at h
    · rw [gridFind, if_neg ho] at h
      intro j c hc
      cases j with
      | zero =>
        simp only [slotAt, List.getD_cons_zero] at hc
        subst hc
        simp only [Option.elim, beq_iff_eq] at ho
        exact ho
      | succ j' =>
        have hrest : gridFind rest pid = none := by
          cases hk : gridFind rest pid with
          | none => rfl
          | some k' => rw [hk] at h; simp at h
        exact ih hrest j' c (by simpa [slotAt, List.getD_cons_succ] using hc)

theorem place_reject_eq (s : GameState) (pid slot : Nat)
    (h : placeAccepted s pid slot = false) :
    handlePiecePlacement s pid slot = s := by
  unfold handlePiecePlacement
  unfold placeAccepted at h
  cases hf : findPiece s pid with
  | none => rfl
  | some piece =>
    rw [hf] at h
    dsimp only at h
    dsimp only
    cases hq : slotAt s.answerGrid slot with
    | none =>
      rw [hq] at h
      dsimp only at h
      simp [h]
    | some q =>
      rw [hq] at h
      dsimp only at h
      by_cases hid : (q.id == pid) = true
      · simp [hid]
      · rw [if_neg hid] at h
        simp [hid, h]

theorem rotate_isComplete (s : GameState) (pid : Nat) (d : Int) :
    (handleRotatePiece s pid d).isComplete = s.isComplete := by
  unfold handleRotatePiece; split <;> rfl

theorem flip_isComplete (s : GameState) (pid : Nat) :
    (handleFlipX s pid).isComplete = s.isComplete := by
  unfold handleFlipX; split <;> rfl

theorem remove_isComplete (s : GameState) (pid : Nat) :
    (handlePieceRemoval s pid).isComplete = s.isComplete := by
  unfold handlePieceRemoval; split <;> rfl

theorem undo_isComplete (s : GameState) :
    (handleUndo s).isComplete = s.isComplete := by
  unfold handleUndo
  repeat' split
  all_goals rfl

theorem redo_isComplete (s : GameState) :
    (handleRedo s).isComplete = s.isComplete := by
  unfold handleRedo
  repeat' split
  all_goals rfl

theorem tick_isComplete (s : GameState) (now : Nat) :
    (timerTick s now).isComplete = s.isComplete := by
  unfold timerTick
  repeat' split
  all_goals rfl

theorem tick_redo (s : GameState) (now : Nat) :
    (timerTick s now).redoHistory = s.redoHistory := by
  unfold timerTick
  repeat' split
  all_goals rfl

theorem tick_answerGrid (s : GameState) (now : Nat) :
    (timerTick s now).answerGrid = s.answerGrid := by
  unfold timerTick
  repeat' split
  all_goals rfl

theorem tick_pieces (s : GameState) (now : Nat) :
    (timerTick s now).pieces = s.pieces := by
  unfold timerTick
  repeat' split
  all_goals rfl

theorem tick_complete_noop (s : GameState) (now : Nat)
    (h : s.isComplete = true) : timerTick s now = s := by
  unfold timerTick
  cases s.gameStartTime with
  | none => rfl
  | some t0 => simp [h]

theorem place_isComplete_mono (s : GameState) (pid slot : Nat)
    (h : s.isComplete = true) :
    (handlePiecePlacement s pid slot).isComplete = true := by
  unfold handlePiecePlacement
  dsimp only
  repeat' split
  all_goals simp [h]

theorem hint_isComplete_mono (s : GameState) (k : Nat)
    (h : s.isComplete = true) :
    (getHint s k).isComplete = true := by
  unfold getHint
  split
  · exact h
  · exact place_isComplete_mono _ _ _ h

theorem place_redo_or (s : GameState) (pid slot : Nat) :
    handlePiecePlacement s pid slot = s ∨
      (handlePiecePlacement s pid slot).redoHistory = [] := by
  unfold handlePiecePlacement
  dsimp only
  repeat' split
  all_goals first | (left; rfl) | (right; rfl)

theorem remove_redo_or (s : GameState) (pid : Nat) :
    handlePieceRemoval s pid = s ∨ (handlePieceRemoval s pid).redoHistory = [] := by
  unfold handlePieceRemoval
  split
  · left; rfl
  · right; rfl

theorem rotate_redo_or (s : GameState) (pid : Nat) (d : Int) :
    handleRotatePiece s pid d = s ∨ (handleRotatePiece s pid d).redoHistory = [] := by
  unfold handleRotatePiece
  split
  · left; rfl
  · right; rfl

theorem flip_redo_or (s : GameState) (pid : Nat) :
    handleFlipX s pid = s ∨ (handleFlipX s pid).redoHistory = [] := by
  unfold handleFlipX
  split
  · left; rfl
  · right; rfl

theorem hint_redo_empty (s : GameState) (k : Nat) (h : s.redoHistory = []) :
    (getHint s k).redoHistory = [] := by
  unfold getHint
  split
  · exact h
  · rcases place_redo_or s _ _ with he | he
    · show (handlePiecePlacement s _ _).redoHistory = []
      rw [he]; exact h
    · exact he

theorem redo_nil_noop (s : GameState) (h : s.redoHistory = []) :
    handleRedo s = s := by
  unfold handleRedo
  rw [h]
  rfl

theorem redo_empty_step (s : GameState) (o : Op) (ho : o.isUndo = false)
    (h : s.redoHistory = []) : (applyOp s o).redoHistory = [] := by
  cases o with
  | placeOp pid slot =>
    rcases place_redo_or s pid slot with he | he
    · show (handlePiecePlacement s pid slot).redoHistory = []
      rw [he]; exact h
    · exact he
  | removeOp pid =>
    rcases remove_redo_or s pid with he | he
    · show (handlePieceRemoval s pid).redoHistory = []
      rw [he]; exact h
    · exact he
  | rotOp pid d =>
    rcases rotate_redo_or s pid d with he | he
    · show (handleRotatePiece s pid d).redoHistory = []
      rw [he]; exact h
    · exact he
  | flipOp pid =>
    rcases flip_redo_or s pid with he | he
    · show (handleFlipX s pid).redoHistory = []
      rw [he]; exact h
    · exact he
  | undoOp => simp [Op.isUndo] at ho
  | redoOp =>
    show (handleRedo s).redoHistory = []
    rw [redo_nil_noop s h]; exact h
  | hintOp k => exact hint_redo_empty s k h
  | tickOp now =>
    show (timerTick s now).redoHistory = []
    rw [tick_redo]; exact h

theorem redo_empty_trace (s : GameState) (ops : List Op)
    (h : s.redoHistory = []) (hops : ∀ o ∈ ops, o.isUndo = false) :
    (applyOps s ops).redoHistory = [] := by
  induction ops generalizing s with
  | nil => exact h
  | cons o rest ih =>
    show (applyOps (applyOp s o) rest).redoHistory = []
    exact ih (applyOp s o)
      (redo_empty_step s o (hops o (List.mem_cons_self o rest)) h)
      (fun o' ho' => hops o' (List.mem_cons_of_mem o ho'))

/-! ### Claim theorems -/

/-- C1: for the irregular family, `place(pieceId, slotIndex)` — called for an
existing piece whose target slot does not already hold that same piece —
accepts the placement (records exactly one new move) if and only if, for
each of the four grid-adjacent directions of the target slot, the piece's
edge code on that side satisfies the spec's edge-compatibility predicate
(convex/convex, convex/flat and flat/convex rejected; empty in-bounds
neighbor read as concave(-1); boundary constrains only a convex edge).
Hence every accepted placement satisfies the predicate against each
non-empty neighbor. -/
theorem place_accept_iff_edge_compatible (s : GameState) (pid slot : Nat)
    (piece : Piece)
    (hfind : findPiece s pid = some piece)
    (hself : ∀ q, slotAt s.answerGrid slot = some q → q.id ≠ pid) :
    ((handlePiecePlacement s pid slot).history.length = s.history.length + 1) ↔
      ∀ ds ∈ dirList, specSideOk (piece.edge ds.selfSide)
        (neighborVal s slot ds.dr ds.dc ds.otherSide) := by
  have hsame : (match slotAt s.answerGrid slot with
      | some q => q.id == pid
      | none => false) = false := by
    cases hq : slotAt s.answerGrid slot with
    | none => rfl
    | some q => simpa using hself q hq
  by_cases hE : placementEdgeOk s piece slot = true
  · have hlen : (handlePiecePlacement s pid slot).history.length =
        s.history.length + 1 := by
      unfold handlePiecePlacement
      rw [hfind]
      dsimp only
      simp [hsame, hE, List.length_append]
    exact iff_of_true hlen ((placementEdgeOk_iff s piece slot).mp hE)
  · have hnoop : handlePiecePlacement s pid slot = s := by
      apply place_reject_eq
      unfold placeAccepted
      rw [hfind]
      dsimp only
      cases hq : slotAt s.answerGrid slot with
      | none =>
        dsimp only
        exact Bool.eq_false_iff.mpr hE
      | some q =>
        have hne := hself q hq
        simp [hne, Bool.eq_false_iff.mpr hE]
    rw [hnoop]
    exact iff_of_false (by omega)
      (fun hR => hE ((placementEdgeOk_iff s piece slot).mpr hR))

/-- State used to instantiate C1's theorem: a fresh 1×1 game with one
all-concave piece. -/
def c1State : GameState := initState 1 1 [mkPiece 1 0 0 (-1) (-1) (-1) (-1)]

/-- Witness for C1 at a concrete input. -/
theorem place_accept_iff_edge_compatible_witness :
    ((handlePiecePlacement c1State 1 0).history.length =
        c1State.history.length + 1) ↔
      ∀ ds ∈ dirList, specSideOk ((mkPiece 1 0 0 (-1) (-1) (-1) (-1)).edge ds.selfSide)
        (neighborVal c1State 0 ds.dr ds.dc ds.otherSide) :=
  place_accept_iff_edge_compatible c1State 1 0 (mkPiece 1 0 0 (-1) (-1) (-1) (-1))
    rfl
    (fun q hq => by
      rw [show slotAt c1State.answerGrid 0 = none from rfl] at hq
      exact Option.noConfusion hq)

/-- C4: a rejected `place` call (piece missing, self-slot, or failed edge
check) is an exact no-op on the whole game state — grid, pieces, move
counter, history and redo stack — no matter how many times it is retried. -/
theorem rejected_place_idempotent_noop (s : GameState) (pid slot : Nat)
    (h : placeAccepted s pid slot = false) (n : Nat) :
    (fun t => handlePiecePlacement t pid slot)^[n] s = s := by
  induction n with
  | zero => rfl
  | succ m ih =>
    have hstep : (fun t => handlePiecePlacement t pid slot)^[m + 1] s =
        (fun t => handlePiecePlacement t pid slot)^[m]
          (handlePiecePlacement s pid slot) :=
      Function.iterate_succ_apply _ m s
    rw [hstep, place_reject_eq s pid slot h]
    exact ih

/-- State used to instantiate C4's theorem: the piece's convex top edge faces
the grid boundary, so placement at slot 0 is rejected. -/
def c4State : GameState := initState 1 1 [mkPiece 1 0 0 1 (-1) (-1) (-1)]

/-- Witness for C4 at a concrete input: retrying the rejected call twice
leaves the state unchanged. -/
theorem rejected_place_idempotent_noop_witness :
    (fun t => handlePiecePlacement t 1 0)^[2] c4State = c4State :=
  rejected_place_idempotent_noop c4State 1 0 (by decide) 2

/-- State reached by flipping the sole piece three times from a fresh game:
`flipCount = 3` (odd) and `lastOperation = flip`. -/
def c5OddState : GameState :=
  applyOps (initState 1 1 [mkPiece 1 0 0 (-1) (-1) (-1) (-1)])
    [Op.flipOp 1, Op.flipOp 1, Op.flipOp 1]

/-- C5 counterexample: after an odd number (3) of flips since the last
rotation, the claim says rotation must still be blocked ("flipped an even
number of times"), but the code's guard (`flipCount < 2`) lets the rotation
proceed: the state changes and a move is recorded. -/
theorem rotation_allowed_after_odd_flips :
    (findPiece c5OddState 1).map (fun p => (p.flipCount, p.lastOperation)) =
      some (3, some LastOp.flipped) ∧
    (handleRotatePiece c5OddState 1 1).moves = c5OddState.moves + 1 ∧
    (handleRotatePiece c5OddState 1 1).history.length =
      c5OddState.history.length + 1 ∧
    handleRotatePiece c5OddState 1 1 ≠ c5OddState := by decide

/-- C5 amended: a piece whose last operation was a flip may not be rotated
until it has been flipped at least twice since the last rotation, and a
piece whose last operation was a rotate may not be flipped until its
accumulated rotation is a multiple of 360°; a violating operation is an
exact silent no-op (no state change, no move recorded). -/
theorem operation_guard_amended (s s2 : GameState) (pid pid2 : Nat) (d : Int)
    (p q : Piece)
    (h1 : findPiece s pid = some p)
    (h2 : p.lastOperation = some LastOp.flipped)
    (h3 : p.flipCount < 2)
    (h4 : findPiece s2 pid2 = some q)
    (h5 : q.lastOperation = some LastOp.rotated)
    (h6 : Int.tmod q.rotation 360 ≠ 0) :
    handleRotatePiece s pid d = s ∧ handleFlipX s2 pid2 = s2 := by
  constructor
  · have hg : rotateGuardBlocked s pid = true := by
      unfold rotateGuardBlocked
      rw [h1]
      simp [h2, h3]
    unfold handleRotatePiece
    simp [hg]
  · have hg : flipGuardBlocked s2 pid2 = true := by
      unfold flipGuardBlocked
      rw [h4]
      simp [h5, h6]
    unfold handleFlipX
    simp [hg]

/-- State whose piece was last flipped once (rotation currently blocked). -/
def c5BlockAState : GameState :=
  initState 1 1 [{ mkPiece 1 0 0 (-1) (-1) (-1) (-1) with
    lastOperation := some LastOp.flipped, flipCount := 1 }]

/-- State whose piece was last rotated to 90° (flip currently blocked). -/
def c5BlockBState : GameState :=
  initState 1 1 [{ mkPiece 1 0 0 (-1) (-1) (-1) (-1) with
    lastOperation := some LastOp.rotated, rotation := 90 }]

/-- Witness for C5's amended theorem at concrete inputs. -/
theorem operation_guard_amended_witness :
    handleRotatePiece c5BlockAState 1 1 = c5BlockAState ∧
    handleFlipX c5BlockBState 1 = c5BlockBState :=
  operation_guard_amended c5BlockAState c5BlockBState 1 1 1
    ({ mkPiece 1 0 0 (-1) (-1) (-1) (-1) with
        lastOperation := some LastOp.flipped, flipCount := 1 })
    ({ mkPiece 1 0 0 (-1) (-1) (-1) (-1) with
        lastOperation := some LastOp.rotated, rotation := 90 })
    rfl rfl (by decide) rfl rfl (by decide)

/-- State after `place(P1, 0)` on a fresh 1×2 game (P1 correct at 0, P2
correct at 1, all edges concave). -/
def replaceTraceS1 : GameState :=
  handlePiecePlacement
    (initState 1 2 [mkPiece 1 0 0 (-1) (-1) (-1) (-1), mkPiece 2 0 1 (-1) (-1) (-1) (-1)])
    1 0

/-- State after the further `place(P2, 0)`, recorded as a `replace`. -/
def replaceTraceS2 : GameState := handlePiecePlacement replaceTraceS1 2 0

/-- State after `undo()` of that replace. -/
def replaceTraceS3 : GameState := handleUndo replaceTraceS2

/-- C2: evaluation of the code at the failing input
`place(P1,0); place(P2,0) (replace); undo()`.  The undo restores the grid
slot to P1 but never touches the pieces array: the replacing piece P2 keeps
`isCorrect = true`, so it occupies no grid slot yet is excluded from the
staging list (it vanishes), P1 is wrongly listed as staged while placed, and
the state after undo differs from the state one operation prior — refuting
the round-trip property on the code. -/
theorem undo_replace_divergence :
    replaceTraceS2.history.map GameMove.action =
      [MoveAction.placeA, MoveAction.replaceA] ∧
    (slotAt replaceTraceS3.answerGrid 0).map Piece.id = some 1 ∧
    (findPiece replaceTraceS3 2).map Piece.isCorrect = some true ∧
    gridFind replaceTraceS3.answerGrid 2 = none ∧
    (processingAreaPieces replaceTraceS3).map Piece.id = [1] ∧
    replaceTraceS3.moves = replaceTraceS1.moves ∧
    replaceTraceS3.pieces ≠ replaceTraceS1.pieces ∧
    replaceTraceS3 ≠ replaceTraceS1 := by decide

/-- Trace for C3's counterexample: rotate the sole piece to 90°, place it at
its correct slot (completion check fails, rotation non-neutral), then rotate
it back to 0°.  No completion check runs after the rotate. -/
def c3State : GameState :=
  applyOps (initState 1 1 [mkPiece 1 0 0 (-1) (-1) (-1) (-1)])
    [Op.rotOp 1 1, Op.placeOp 1 0, Op.rotOp 1 (-1)]

/-- C3 counterexample: after the final rotate, every slot is occupied and the
occupying piece's position is correct, its accumulated rotation is 0 mod 360
and it is unflipped — the claim's completion conditions hold — yet the
completion flag is still false, because the check is not invoked after a
rotate. -/
theorem completion_unchecked_after_rotate :
    specIrregularComplete c3State = true ∧
    c3State.isComplete = false ∧
    gridFind c3State.answerGrid 1 = some 0 ∧
    (findPiece c3State 1).map (fun p => (Int.tmod p.rotation 360, p.flipX)) =
      some (0, false) := by decide

/-- C3 amended: the completion check runs only inside a successful placement
— the flag becomes the old flag joined with the check evaluated on the new
grid's stored copies — while rotate, flip, remove, undo and redo never
change the completion flag at all (so a mutation that makes the predicate
true outside a placement is not detected). -/
theorem completion_only_on_placement (s : GameState) (pid pid2 slot : Nat)
    (d : Int) (hacc : placeAccepted s pid slot = true) :
    (handlePiecePlacement s pid slot).isComplete =
      (s.isComplete ||
        completionCheck (handlePiecePlacement s pid slot).answerGrid s.cols) ∧
    (handleRotatePiece s pid2 d).isComplete = s.isComplete ∧
    (handleFlipX s pid2).isComplete = s.isComplete ∧
    (handlePieceRemoval s pid2).isComplete = s.isComplete ∧
    (handleUndo s).isComplete = s.isComplete ∧
    (handleRedo s).isComplete = s.isComplete := by
  refine ⟨?_, rotate_isComplete s pid2 d, flip_isComplete s pid2,
    remove_isComplete s pid2, undo_isComplete s, redo_isComplete s⟩
  unfold placeAccepted at hacc
  cases hf : findPiece s pid with
  | none => rw [hf] at hacc; exact absurd hacc (by simp)
  | some piece =>
    rw [hf] at hacc
    dsimp only at hacc
    unfold handlePiecePlacement
    rw [hf]
    dsimp only
    cases hq : slotAt s.answerGrid slot with
    | none =>
      rw [hq] at hacc
      dsimp only at hacc
      simp [hq, hacc]
    | some q =>
      rw [hq] at hacc
      dsimp only at hacc
      by_cases hid : (q.id == pid) = true
      · rw [if_pos hid] at hacc
        exact absurd hacc (by simp)
      · rw [if_neg hid] at hacc
        simp [hq, hid, hacc]

/-- Fresh 1×1 all-concave game used to instantiate C3's amended theorem. -/
def c3WitState : GameState := initState 1 1 [mkPiece 1 0 0 (-1) (-1) (-1) (-1)]

/-- Witness for C3's amended theorem at a concrete accepted placement. -/
theorem completion_only_on_placement_witness :
    (handlePiecePlacement c3WitState 1 0).isComplete =
      (c3WitState.isComplete ||
        completionCheck (handlePiecePlacement c3WitState 1 0).answerGrid
          c3WitState.cols) ∧
    (handleRotatePiece c3WitState 1 1).isComplete = c3WitState.isComplete ∧
    (handleFlipX c3WitState 1).isComplete = c3WitState.isComplete ∧
    (handlePieceRemoval c3WitState 1).isComplete = c3WitState.isComplete ∧
    (handleUndo c3WitState).isComplete = c3WitState.isComplete ∧
    (handleRedo c3WitState).isComplete = c3WitState.isComplete :=
  completion_only_on_placement c3WitState 1 1 0 1 (by decide)

/-- C6: a ±90° rotation of an irregular piece (guard passing) cyclically
permutes the four edge codes by one 90° step and adds `90 × direction` to
the accumulated rotation field without wraparound, with both the permutation
direction and the applied delta's sign inverted when the piece is currently
flipped. -/
theorem rotate_permutes_edges (s : GameState) (pid : Nat) (d : Int) (p : Piece)
    (hfind : findPiece s pid = some p)
    (hg : rotateGuardBlocked s pid = false)
    (hd : d = 1 ∨ d = -1) :
    findPiece (handleRotatePiece s pid d) pid = some
      { p with
        up := if (if p.flipX then -d else d) = 1 then p.left else p.right,
        right := if (if p.flipX then -d else d) = 1 then p.up else p.down,
        down := if (if p.flipX then -d else d) = 1 then p.right else p.left,
        left := if (if p.flipX then -d else d) = 1 then p.down else p.up,
        rotation := p.rotation + 90 * (if p.flipX then -d else d),
        lastOperation := some LastOp.rotated,
        rotateCount := p.rotateCount + 1,
        flipCount := 0 } := by
  have hfind2 : s.pieces.find? (fun q => q.id == pid) = some p := hfind
  have hp0 := List.find?_some hfind2
  have hpid : (p.id == pid) = true := hp0
  unfold handleRotatePiece
  rw [hg, if_neg Bool.false_ne_true]
  unfold findPiece
  rw [find?_map_of_id _ pid _
    (fun p' => by
      by_cases h : (p'.id == pid) = true <;> simp [h, rotateUpdate])]
  rw [hfind2]
  simp only [Option.map_some', hpid, if_true]
  rcases hd with rfl | rfl <;> cases hfl : p.flipX <;>
    simp [rotateUpdate, rotSteps, rotIter, rotOnce, hfl]

/-- Piece with distinct edge markers used to instantiate C6's theorem. -/
def c6WitPiece : Piece := mkPiece 1 0 0 10 20 30 40

/-- Fresh game holding `c6WitPiece`. -/
def c6WitState : GameState := initState 1 1 [c6WitPiece]

/-- Witness for C6 at a concrete input (right rotation, unflipped piece). -/
theorem rotate_permutes_edges_witness :
    findPiece (handleRotatePiece c6WitState 1 1) 1 = some
      { c6WitPiece with
        up := if (if c6WitPiece.flipX then -(1 : Int) else 1) = 1 then
          c6WitPiece.left else c6WitPiece.right,
        right := if (if c6WitPiece.flipX then -(1 : Int) else 1) = 1 then
          c6WitPiece.up else c6WitPiece.down,
        down := if (if c6WitPiece.flipX then -(1 : Int) else 1) = 1 then
          c6WitPiece.right else c6WitPiece.left,
        left := if (if c6WitPiece.flipX then -(1 : Int) else 1) = 1 then
          c6WitPiece.down else c6WitPiece.up,
        rotation := c6WitPiece.rotation + 90 * (if c6WitPiece.flipX then -(1 : Int) else 1),
        lastOperation := some LastOp.rotated,
        rotateCount := c6WitPiece.rotateCount + 1,
        flipCount := 0 } :=
  rotate_permutes_edges c6WitState 1 1 c6WitPiece rfl (by decide) (Or.inl rfl)

/-- C7: every new mutating operation either leaves the state untouched
(rejected) or empties the redo stack, and consequently any state reached
from an empty redo stack by operations not containing `undo` still has an
empty redo stack — the redo stack is non-empty only immediately after one
or more undos with no intervening new operation. -/
theorem redo_cleared_by_new_ops (s : GameState) (ops : List Op)
    (pid slot : Nat) (d : Int)
    (h : s.redoHistory = [])
    (hops : ∀ o ∈ ops, o.isUndo = false) :
    (handlePiecePlacement s pid slot = s ∨
      (handlePiecePlacement s pid slot).redoHistory = []) ∧
    (handlePieceRemoval s pid = s ∨ (handlePieceRemoval s pid).redoHistory = []) ∧
    (handleRotatePiece s pid d = s ∨ (handleRotatePiece s pid d).redoHistory = []) ∧
    (handleFlipX s pid = s ∨ (handleFlipX s pid).redoHistory = []) ∧
    (applyOps s ops).redoHistory = [] :=
  ⟨place_redo_or s pid slot, remove_redo_or s pid, rotate_redo_or s pid d,
    flip_redo_or s pid, redo_empty_trace s ops h hops⟩

/-- Fresh game used to instantiate C7's theorem. -/
def c7WitState : GameState := initState 1 1 [mkPiece 1 0 0 (-1) (-1) (-1) (-1)]

/-- Witness for C7 at a concrete input. -/
theorem redo_cleared_by_new_ops_witness :
    (handlePiecePlacement c7WitState 1 0 = c7WitState ∨
      (handlePiecePlacement c7WitState 1 0).redoHistory = []) ∧
    (handlePieceRemoval c7WitState 1 = c7WitState ∨
      (handlePieceRemoval c7WitState 1).redoHistory = []) ∧
    (handleRotatePiece c7WitState 1 1 = c7WitState ∨
      (handleRotatePiece c7WitState 1 1).redoHistory = []) ∧
    (handleFlipX c7WitState 1 = c7WitState ∨
      (handleFlipX c7WitState 1).redoHistory = []) ∧
    (applyOps c7WitState [Op.placeOp 1 0, Op.redoOp, Op.tickOp 5]).redoHistory = [] :=
  redo_cleared_by_new_ops c7WitState [Op.placeOp 1 0, Op.redoOp, Op.tickOp 5]
    1 0 1 rfl (by decide)

/-- C9: once the completion flag is set, no operation of the session's
operation language (place, remove, rotate, flip, undo, redo, hint, timer
tick) unsets it, and the elapsed-time clock stops: a timer tick on a
completed state is an exact no-op. -/
theorem completion_monotone (s : GameState) (o : Op) (now : Nat)
    (h : s.isComplete = true) :
    (applyOp s o).isComplete = true ∧ timerTick s now = s := by
  refine ⟨?_, tick_complete_noop s now h⟩
  cases o with
  | placeOp pid slot => exact place_isComplete_mono s pid slot h
  | removeOp pid =>
    show (handlePieceRemoval s pid).isComplete = true
    rw [remove_isComplete]; exact h
  | rotOp pid d =>
    show (handleRotatePiece s pid d).isComplete = true
    rw [rotate_isComplete]; exact h
  | flipOp pid =>
    show (handleFlipX s pid).isComplete = true
    rw [flip_isComplete]; exact h
  | undoOp =>
    show (handleUndo s).isComplete = true
    rw [undo_isComplete]; exact h
  | redoOp =>
    show (handleRedo s).isComplete = true
    rw [redo_isComplete]; exact h
  | hintOp k => exact hint_isComplete_mono s k h
  | tickOp t =>
    show (timerTick s t).isComplete = true
    rw [tick_isComplete]; exact h

/-- A completed game state used to instantiate C9's theorem. -/
def c9WitState : GameState :=
  { initState 1 1 [mkPiece 1 0 0 (-1) (-1) (-1) (-1)] with isComplete := true }

/-- Witness for C9 at a concrete input. -/
theorem completion_monotone_witness :
    (applyOp c9WitState (Op.rotOp 1 1)).isComplete = true ∧
    timerTick c9WitState 7 = c9WitState :=
  completion_monotone c9WitState (Op.rotOp 1 1) 7 rfl

theorem place_orientation (s : GameState) (pid0 slot pid' : Nat) :
    (findPiece (handlePiecePlacement s pid0 slot) pid').map
        (fun p => (p.rotation, p.flipX)) =
      (findPiece s pid').map (fun p => (p.rotation, p.flipX)) := by
  unfold handlePiecePlacement
  cases hf : findPiece s pid0 with
  | none => rfl
  | some piece =>
    dsimp only
    split
    · rfl
    · split
      · rfl
      · unfold findPiece
        dsimp only
        rw [find?_map_of_id _ pid' _
          (fun p' => by
            by_cases h1 : (p'.id == pid0) = true <;>
              by_cases h2 :
                ((slotAt s.answerGrid slot).map Piece.id == some p'.id) = true <;>
              simp [h1, h2])]
        cases s.pieces.find? (fun p => p.id == pid') with
        | none => rfl
        | some a =>
          dsimp only [Option.map_some']
          by_cases h1 : (a.id == pid0) = true <;>
            by_cases h2 :
              ((slotAt s.answerGrid slot).map Piece.id == some a.id) = true <;>
            simp [h1, h2]

/-- Trace for C8's counterexample: rotate the sole staged piece to 90°. -/
def c8State : GameState :=
  applyOps (initState 1 1 [mkPiece 1 0 0 (-1) (-1) (-1) (-1)]) [Op.rotOp 1 1]

/-- C8 counterexample: with exactly one hint candidate (so the selection is
forced regardless of the random draw), `hint()` places the piece at its
correct slot but keeps its 90° rotation — it does not reset rotation and
flip to neutral as the claim states. -/
theorem hint_keeps_rotation :
    (hintCandidates c8State).map Piece.id = [1] ∧
    ((getHint c8State 0).answerGrid.map
      (fun o => o.map (fun c => (c.id, c.rotation, c.flipX)))) =
        [some (1, 90, false)] ∧
    Int.tmod 90 360 ≠ 0 := by decide

/-- C8 amended: `hint()` draws its candidate only from pieces with
`isDraggable && !isCorrect` (so never from placed pieces, which are marked
correct); it is a no-op when there are none; otherwise it picks the
candidate selected by the random oracle, runs the ordinary placement
routine at that piece's correct slot `gridRow × cols + gridCol` (subject to
the edge validation, with its replace semantics) and marks the piece
selected — it never changes any piece's rotation or flip state. -/
theorem hint_random_placement (s : GameState) (k : Nat) :
    (hintCandidates s = [] → getHint s k = s) ∧
    (∀ c0 rest, hintCandidates s = c0 :: rest →
      ((c0 :: rest).getD (k % (c0 :: rest).length) c0) ∈ hintCandidates s ∧
      getHint s k =
        { handlePiecePlacement s
            ((c0 :: rest).getD (k % (c0 :: rest).length) c0).id
            (((c0 :: rest).getD (k % (c0 :: rest).length) c0).gridRow * s.cols +
              ((c0 :: rest).getD (k % (c0 :: rest).length) c0).gridCol) with
          selectedPiece :=
            some ((c0 :: rest).getD (k % (c0 :: rest).length) c0).id } ∧
      ∀ pid, (findPiece (getHint s k) pid).map (fun p => (p.rotation, p.flipX)) =
        (findPiece s pid).map (fun p => (p.rotation, p.flipX))) := by
  constructor
  · intro hc
    unfold getHint
    rw [hc]
  · intro c0 rest hc
    have hlen : k % (c0 :: rest).length < (c0 :: rest).length :=
      Nat.mod_lt _ (by simp)
    have hmem : ((c0 :: rest).getD (k % (c0 :: rest).length) c0) ∈
        hintCandidates s := by
      rw [hc, List.getD_eq_getElem _ _ hlen]
      exact List.getElem_mem hlen
    have heq : getHint s k =
        { handlePiecePlacement s
            ((c0 :: rest).getD (k % (c0 :: rest).length) c0).id
            (((c0 :: rest).getD (k % (c0 :: rest).length) c0).gridRow * s.cols +
              ((c0 :: rest).getD (k % (c0 :: rest).length) c0).gridCol) with
          selectedPiece :=
            some ((c0 :: rest).getD (k % (c0 :: rest).length) c0).id } := by
      unfold getHint
      rw [hc]
    refine ⟨hmem, heq, ?_⟩
    intro pid
    rw [heq]
    exact place_orientation s _ _ pid

/-- Fresh game with a single staged piece, instantiating C8's amended
theorem. -/
def c8WitState : GameState := initState 1 1 [mkPiece 1 0 0 (-1) (-1) (-1) (-1)]

/-- Witness for C8's amended theorem at a concrete input. -/
theorem hint_random_placement_witness :
    mkPiece 1 0 0 (-1) (-1) (-1) (-1) ∈ hintCandidates c8WitState ∧
    getHint c8WitState 0 =
      { handlePiecePlacement c8WitState 1 0 with selectedPiece := some 1 } :=
  have h := (hint_random_placement c8WitState 0).2
    (mkPiece 1 0 0 (-1) (-1) (-1) (-1)) [] rfl
  ⟨h.1, h.2.1⟩

theorem slotAt_some_lt (g : List (Option Piece)) (j : Nat) (c : Piece)
    (h : slotAt g j = some c) : j < g.length := by
  by_contra hlt
  push_neg at hlt
  rw [slotAt, List.getD_eq_default _ _ hlt] at h
  exact Option.noConfusion h

/-- The C10 invariant: every copy stored in an occupied grid slot carries
`isCorrect = true`, every pieces-array entry with the same id is marked
correct, and no two distinct slots hold copies with the same id. -/
def OccInv (s : GameState) : Prop :=
  (∀ i c, slotAt s.answerGrid i = some c →
    c.isCorrect = true ∧ ∀ p ∈ s.pieces, p.id = c.id → p.isCorrect = true) ∧
  (∀ i j c1 c2, slotAt s.answerGrid i = some c1 →
    slotAt s.answerGrid j = some c2 → c1.id = c2.id → i = j)

theorem OccInv_init (rows cols : Nat) (ps : List Piece) :
    OccInv (initState rows cols ps) := by
  constructor
  · intro i c hc
    rw [show (initState rows cols ps).answerGrid =
      List.replicate (rows * cols) none from rfl] at hc
    by_cases hi : i < rows * cols
    · rw [slotAt, List.getD_eq_getElem _ _ (by simpa using hi),
        List.getElem_replicate] at hc
      exact Option.noConfusion hc
    · rw [slotAt, List.getD_eq_default _ _ (by simpa using Nat.le_of_not_lt hi)] at hc
      exact Option.noConfusion hc
  · intro i j c1 c2 h1 h2 _
    rw [show (initState rows cols ps).answerGrid =
      List.replicate (rows * cols) none from rfl] at h1
    by_cases hi : i < rows * cols
    · rw [slotAt, List.getD_eq_getElem _ _ (by simpa using hi),
        List.getElem_replicate] at h1
      exact Option.noConfusion h1
    · rw [slotAt, List.getD_eq_default _ _ (by simpa using Nat.le_of_not_lt hi)] at h1
      exact Option.noConfusion h1

theorem OccInv_place_core
    (g : List (Option Piece)) (ps : List Piece) (cstar : Piece)
    (pid slot : Nat) (G : List (Option Piece)) (f : Piece → Piece)
    (hA : ∀ i c, slotAt g i = some c →
      c.isCorrect = true ∧ ∀ p ∈ ps, p.id = c.id → p.isCorrect = true)
    (hB : ∀ i j c1 c2, slotAt g i = some c1 → slotAt g j = some c2 →
      c1.id = c2.id → i = j)
    (hGsub : ∀ j c, slotAt G j = some c → slotAt g j = some c)
    (hGnopid : ∀ j c, slotAt G j = some c → c.id ≠ pid)
    (hGlen : G.length = g.length)
    (hstar1 : cstar.isCorrect = true) (hstar2 : cstar.id = pid)
    (hf1 : ∀ p, (f p).id = p.id)
    (hfPid : ∀ p, p.id = pid → f p = { p with isCorrect := true })
    (hfOther : ∀ p, p.id ≠ pid →
      f p = p ∨ ∃ q, slotAt g slot = some q ∧ q.id = p.id) :
    (∀ i c, slotAt (G.set slot (some cstar)) i = some c →
      c.isCorrect = true ∧ ∀ p ∈ ps.map f, p.id = c.id → p.isCorrect = true) ∧
    (∀ i j c1 c2, slotAt (G.set slot (some cstar)) i = some c1 →
      slotAt (G.set slot (some cstar)) j = some c2 → c1.id = c2.id → i = j) := by
  constructor
  · intro i c hc
    rw [slotAt_set] at hc
    by_cases hcase : slot = i ∧ slot < G.length
    · rw [if_pos hcase] at hc
      injection hc with hc
      subst hc
      refine ⟨hstar1, ?_⟩
      intro p hp hid
      rw [List.mem_map] at hp
      obtain ⟨p0, hp0, rfl⟩ := hp
      by_cases hpp : p0.id = pid
      · rw [hfPid p0 hpp]
      · rw [hf1 p0, hstar2] at hid
        exact absurd hid hpp
    · rw [if_neg hcase] at hc
      have hold := hGsub i c hc
      have hcnp := hGnopid i c hc
      refine ⟨(hA i c hold).1, ?_⟩
      intro p hp hid
      rw [List.mem_map] at hp
      obtain ⟨p0, hp0, rfl⟩ := hp
      rw [hf1 p0] at hid
      by_cases hpp : p0.id = pid
      · exact absurd (hid.symm.trans hpp) hcnp
      · rcases hfOther p0 hpp with hfp | ⟨q, hq1, hq2⟩
        · rw [hfp]
          exact (hA i c hold).2 p0 hp0 hid
        · have hieq : slot = i := hB slot i q c hq1 hold (hq2.trans hid)
          have hslotlt : slot < g.length := slotAt_some_lt g slot q hq1
          exact absurd ⟨hieq, by rw [hGlen]; exact hslotlt⟩ hcase
  · intro i j c1 c2 h1 h2 hid
    rw [slotAt_set] at h1 h2
    by_cases hc1 : slot = i ∧ slot < G.length <;>
      by_cases hc2 : slot = j ∧ slot < G.length
    · exact hc1.1.symm.trans hc2.1
    · rw [if_pos hc1] at h1
      rw [if_neg hc2] at h2
      injection h1 with h1
      subst h1
      rw [hstar2] at hid
      exact absurd hid.symm (hGnopid j c2 h2)
    · rw [if_neg hc1] at h1
      rw [if_pos hc2] at h2
      injection h2 with h2
      subst h2
      rw [hstar2] at hid
      exact absurd hid (hGnopid i c1 h1)
    · rw [if_neg hc1] at h1
      rw [if_neg hc2] at h2
      exact hB i j c1 c2 (hGsub _ _ h1) (hGsub _ _ h2) hid

theorem OccInv_place (s : GameState) (pid slot : Nat) (h0 : OccInv s) :
    OccInv (handlePiecePlacement s pid slot) := by
  obtain ⟨hA, hB⟩ := h0
  unfold handlePiecePlacement
  cases hf : findPiece s pid with
  | none => exact ⟨hA, hB⟩
  | some piece =>
    dsimp only
    split
    · exact ⟨hA, hB⟩
    · split
      · exact ⟨hA, hB⟩
      · have hfind2 : s.pieces.find? (fun q => q.id == pid) = some piece := hf
        have hp0 := List.find?_some hfind2
        have hpidEq : piece.id = pid := by simpa using hp0
        have hf1 : ∀ p : Piece,
            ((fun p => if (p.id == pid) = true then { p with isCorrect := true }
              else if ((slotAt s.answerGrid slot).map Piece.id == some p.id) = true
                then { p with isCorrect := false } else p) p).id = p.id := by
          intro p
          by_cases h1 : (p.id == pid) = true <;>
            by_cases h2 : ((slotAt s.answerGrid slot).map Piece.id == some p.id) = true <;>
            simp [h1, h2]
        have hfPid : ∀ p : Piece, p.id = pid →
            (fun p => if (p.id == pid) = true then { p with isCorrect := true }
              else if ((slotAt s.answerGrid slot).map Piece.id == some p.id) = true
                then { p with isCorrect := false } else p) p =
              { p with isCorrect := true } := by
          intro p hp
          simp [hp]
        have hfOther : ∀ p : Piece, p.id ≠ pid →
            (fun p => if (p.id == pid) = true then { p with isCorrect := true }
              else if ((slotAt s.answerGrid slot).map Piece.id == some p.id) = true
                then { p with isCorrect := false } else p) p = p ∨
              ∃ q, slotAt s.answerGrid slot = some q ∧ q.id = p.id := by
          intro p hp
          have h1 : (p.id == pid) = false := by simpa using hp
          by_cases h2 : ((slotAt s.answerGrid slot).map Piece.id == some p.id) = true
          · right
            rw [beq_iff_eq] at h2
            obtain ⟨q, hq1, hq2⟩ := Option.map_eq_some'.mp h2
            exact ⟨q, hq1, hq2⟩
          · left
            simp [h1, h2]
        cases hcsi : gridFind s.answerGrid pid with
        | none =>
          exact OccInv_place_core s.answerGrid s.pieces
            { piece with isCorrect := true } pid slot s.answerGrid _
            hA hB (fun j c h => h) (gridFind_none _ _ hcsi) rfl rfl hpidEq
            hf1 hfPid hfOther
        | some i0 =>
          have hGsub : ∀ j c, slotAt (s.answerGrid.set i0 none) j = some c →
              slotAt s.answerGrid j = some c := by
            intro j c h
            rw [slotAt_set] at h
            by_cases hcase : i0 = j ∧ i0 < s.answerGrid.length
            · rw [if_pos hcase] at h
              exact Option.noConfusion h
            · rw [if_neg hcase] at h
              exact h
          have hGnopid : ∀ j c, slotAt (s.answerGrid.set i0 none) j = some c →
              c.id ≠ pid := by
            intro j c h hcid
            have hold := hGsub j c h
            obtain ⟨q0, hq0, hq0id⟩ := gridFind_some s.answerGrid pid i0 hcsi
            have hji : j = i0 := hB j i0 c q0 hold hq0 (by rw [hcid, hq0id])
            subst hji
            have hlt : j < s.answerGrid.length := slotAt_some_lt _ _ _ hold
            rw [slotAt_set, if_pos ⟨rfl, hlt⟩] at h
            exact Option.noConfusion h
          exact OccInv_place_core s.answerGrid s.pieces
            { piece with isCorrect := true } pid slot (s.answerGrid.set i0 none) _
            hA hB hGsub hGnopid (by simp) rfl hpidEq hf1 hfPid hfOther

theorem OccInv_remove (s : GameState) (pid : Nat) (h0 : OccInv s) :
    OccInv (handlePieceRemoval s pid) := by
  obtain ⟨hA, hB⟩ := h0
  unfold handlePieceRemoval
  cases hg : gridFind s.answerGrid pid with
  | none => exact ⟨hA, hB⟩
  | some slot0 =>
    obtain ⟨q0, hq0, hq0id⟩ := gridFind_some s.answerGrid pid slot0 hg
    have hGsub : ∀ j c, slotAt (s.answerGrid.set slot0 none) j = some c →
        slotAt s.answerGrid j = some c ∧ c.id ≠ pid := by
      intro j c h
      rw [slotAt_set] at h
      by_cases hcase : slot0 = j ∧ slot0 < s.answerGrid.length
      · rw [if_pos hcase] at h
        exact Option.noConfusion h
      · rw [if_neg hcase] at h
        refine ⟨h, fun hcid => ?_⟩
        have hji : j = slot0 := hB j slot0 c q0 h hq0 (by rw [hcid, hq0id])
        have hlt : slot0 < s.answerGrid.length := slotAt_some_lt _ _ _ hq0
        exact hcase ⟨hji.symm, hlt⟩
    constructor
    · intro i c hc
      dsimp only at hc
      obtain ⟨hold, hcnp⟩ := hGsub i c hc
      refine ⟨(hA i c hold).1, ?_⟩
      intro p hp hid
      dsimp only at hp
      rw [List.mem_map] at hp
      obtain ⟨p0, hp0, rfl⟩ := hp
      have hfid : (if (p0.id == pid) = true then { p0 with isCorrect := false }
          else p0).id = p0.id := by
        by_cases h1 : (p0.id == pid) = true <;> simp [h1]
      rw [hfid] at hid
      by_cases h1 : (p0.id == pid) = true
      · rw [beq_iff_eq] at h1
        exact absurd (hid.symm.trans h1) hcnp
      · rw [if_neg h1]
        exact (hA i c hold).2 p0 hp0 hid
    · intro i j c1 c2 h1 h2 hid
      dsimp only at h1 h2
      exact hB i j c1 c2 (hGsub i c1 h1).1 (hGsub j c2 h2).1 hid

theorem OccInv_rotate (s : GameState) (pid : Nat) (d : Int) (h0 : OccInv s) :
    OccInv (handleRotatePiece s pid d) := by
  obtain ⟨hA, hB⟩ := h0
  unfold handleRotatePiece
  split
  · exact ⟨hA, hB⟩
  · constructor
    · intro i c hc
      dsimp only at hc
      refine ⟨(hA i c hc).1, ?_⟩
      intro p hp hid
      dsimp only at hp
      rw [List.mem_map] at hp
      obtain ⟨p0, hp0, rfl⟩ := hp
      have hfid : (if (p0.id == pid) = true then rotateUpdate d p0 else p0).id
          = p0.id := by
        by_cases h1 : (p0.id == pid) = true <;> simp [h1, rotateUpdate]
      have hfcor : (if (p0.id == pid) = true then rotateUpdate d p0 else p0).isCorrect
          = p0.isCorrect := by
        by_cases h1 : (p0.id == pid) = true <;> simp [h1, rotateUpdate]
      rw [hfid] at hid
      rw [hfcor]
      exact (hA i c hc).2 p0 hp0 hid
    · intro i j c1 c2 h1 h2 hid
      dsimp only at h1 h2
      exact hB i j c1 c2 h1 h2 hid

theorem OccInv_flip (s : GameState) (pid : Nat) (h0 : OccInv s) :
    OccInv (handleFlipX s pid) := by
  obtain ⟨hA, hB⟩ := h0
  unfold handleFlipX
  split
  · exact ⟨hA, hB⟩
  · constructor
    · intro i c hc
      dsimp only at hc
      refine ⟨(hA i c hc).1, ?_⟩
      intro p hp hid
      dsimp only at hp
      rw [List.mem_map] at hp
      obtain ⟨p0, hp0, rfl⟩ := hp
      have hfid : (if (p0.id == pid) = true then flipUpdate p0 else p0).id
          = p0.id := by
        by_cases h1 : (p0.id == pid) = true <;> simp [h1, flipUpdate]
      have hfcor : (if (p0.id == pid) = true then flipUpdate p0 else p0).isCorrect
          = p0.isCorrect := by
        by_cases h1 : (p0.id == pid) = true <;> simp [h1, flipUpdate]
      rw [hfid] at hid
      rw [hfcor]
      exact (hA i c hc).2 p0 hp0 hid
    · intro i j c1 c2 h1 h2 hid
      dsimp only at h1 h2
      exact hB i j c1 c2 h1 h2 hid

theorem OccInv_hint (s : GameState) (k : Nat) (h0 : OccInv s) :
    OccInv (getHint s k) := by
  unfold getHint
  split
  · exact h0
  · exact OccInv_place s _ _ h0

theorem OccInv_tick (s : GameState) (now : Nat) (h0 : OccInv s) :
    OccInv (timerTick s now) := by
  unfold timerTick
  repeat' split
  all_goals exact h0

theorem OccInv_step (s : GameState) (o : Op) (ho : o.isUndo = false)
    (h0 : OccInv s) (h1 : s.redoHistory = []) : OccInv (applyOp s o) := by
  cases o with
  | placeOp pid slot => exact OccInv_place s pid slot h0
  | removeOp pid => exact OccInv_remove s pid h0
  | rotOp pid d => exact OccInv_rotate s pid d h0
  | flipOp pid => exact OccInv_flip s pid h0
  | undoOp => simp [Op.isUndo] at ho
  | redoOp =>
    show OccInv (handleRedo s)
    rw [redo_nil_noop s h1]
    exact h0
  | hintOp k => exact OccInv_hint s k h0
  | tickOp now => exact OccInv_tick s now h0

theorem OccInv_trace (s : GameState) (ops : List Op)
    (h0 : OccInv s) (h1 : s.redoHistory = [])
    (hops : ∀ o ∈ ops, o.isUndo = false) : OccInv (applyOps s ops) := by
  induction ops generalizing s with
  | nil => exact h0
  | cons o rest ih =>
    show OccInv (applyOps (applyOp s o) rest)
    exact ih (applyOp s o)
      (OccInv_step s o (hops o (List.mem_cons_self o rest)) h0 h1)
      (redo_empty_step s o (hops o (List.mem_cons_self o rest)) h1)
      (fun o' ho' => hops o' (List.mem_cons_of_mem o ho'))

/-- C10 amended: every successful placement stores the placed copy with
`isCorrect = true` — even at a wrong slot — and in every state reachable
from an invariant-satisfying, empty-redo state by operations not containing
`undo`, every grid-occupying copy has `isCorrect = true`, its piece is
absent from the staging/processing list and is never a hint candidate (so a
misplaced piece is still treated as settled).  The restriction to undo-free
traces is forced: an undo of a remove or replace stores a copy with
`isCorrect = false` back into the grid. -/
theorem grid_occupants_marked_correct (s : GameState) (ops : List Op)
    (h0 : OccInv s) (h1 : s.redoHistory = [])
    (hops : ∀ o ∈ ops, o.isUndo = false) :
    OccInv (applyOps s ops) ∧
    ∀ i c, slotAt (applyOps s ops).answerGrid i = some c →
      c.isCorrect = true ∧
      (∀ p ∈ processingAreaPieces (applyOps s ops), p.id ≠ c.id) ∧
      (∀ p ∈ hintCandidates (applyOps s ops), p.id ≠ c.id) := by
  have hInv := OccInv_trace s ops h0 h1 hops
  refine ⟨hInv, ?_⟩
  intro i c hc
  obtain ⟨hcor, hpieces⟩ := hInv.1 i c hc
  refine ⟨hcor, ?_, ?_⟩
  · intro p hp hid
    unfold processingAreaPieces at hp
    rw [List.mem_filter] at hp
    obtain ⟨hpmem, hpf⟩ := hp
    have hpc := hpieces p hpmem hid
    simp [hpc] at hpf
  · intro p hp hid
    unfold hintCandidates at hp
    rw [List.mem_filter] at hp
    obtain ⟨hpmem, hpf⟩ := hp
    have hpc := hpieces p hpmem hid
    simp [hpc] at hpf

/-- Fresh 1×2 game for C10's witness. -/
def c10WitState : GameState := initState 1 2 [mkPiece 1 0 0 (-1) (-1) (-1) (-1)]

/-- The trace for C10's witness: place the piece at the wrong slot 1. -/
def c10WitOps : List Op := [Op.placeOp 1 1]

/-- The copy stored by that placement. -/
def c10WitCopy : Piece := { mkPiece 1 0 0 (-1) (-1) (-1) (-1) with isCorrect := true }

/-- Witness for C10's amended theorem: the misplaced piece is stored with
`isCorrect = true` and excluded from the staging list. -/
theorem grid_occupants_marked_correct_witness :
    slotAt (applyOps c10WitState c10WitOps).answerGrid 1 = some c10WitCopy ∧
    c10WitCopy.isCorrect = true ∧
    (∀ p ∈ processingAreaPieces (applyOps c10WitState c10WitOps),
      p.id ≠ c10WitCopy.id) :=
  have h := (grid_occupants_marked_correct c10WitState c10WitOps
    (OccInv_init 1 2 [mkPiece 1 0 0 (-1) (-1) (-1) (-1)]) rfl (by decide)).2
    1 c10WitCopy (by decide)
  ⟨by decide, h.1, h.2.1⟩

/-- Trace for C10's counterexample: place the piece at the wrong slot,
remove it, then undo the removal. -/
def c10BugState : GameState :=
  applyOps (initState 1 2 [mkPiece 1 0 0 (-1) (-1) (-1) (-1)])
    [Op.placeOp 1 1, Op.removeOp 1, Op.undoOp]

/-- C10 counterexample: after undoing a removal, the restored grid copy has
`isCorrect = false`, and the piece — though occupying slot 1 — sits in the
staging/processing list and is offered as a hint candidate, refuting the
claimed invariant over all reachable states. -/
theorem undo_remove_breaks_correct_flag :
    (slotAt c10BugState.answerGrid 1).map (fun c => (c.id, c.isCorrect)) =
      some (1, false) ∧
    (processingAreaPieces c10BugState).map Piece.id = [1] ∧
    (hintCandidates c10BugState).map Piece.id = [1] := by decide

end SLAPuzzle
